import Mathlib

/-!
Verification development for the PostHog ingestion event pipeline runner
(`src/plugin-server/src/ingestion/event-pipeline-runner/event-pipeline-runner.ts`,
class `EventPipelineRunnerV2`).

The runner is embedded shallowly: JavaScript objects become association lists of
JSON-like values, the mutable per-event instance state becomes explicit state
passing, thrown `EventDroppedError`s become `Except`, and the collaborators that
live outside the provided sources (team manager, cookieless manager, hog
transformer, `PersonState`, group-type manager, heatmap extractor, Kafka
producer) become fields of an explicit `Env` record of functions, so that every
theorem quantifies over their behaviour.  Definitions that the claims depend on
but whose source is not provided are modelled from the spec and say so in their
doc comments.
-/

/-- A JSON-like value, the type of entries of an event's `properties` bag. -/
inductive JVal where
  | jnull : JVal
  | jbool : Bool → JVal
  | jnum : Int → JVal
  | jstr : String → JVal
  | jobj : List (String × JVal) → JVal

mutual

/-- Decidable equality of JSON values (hand-rolled: the nested list blocks
automatic derivation). -/
def jvalDecEq : (a b : JVal) → Decidable (a = b)
  | JVal.jnull, JVal.jnull => isTrue rfl
  | JVal.jnull, JVal.jbool _ => isFalse (fun h => JVal.noConfusion h)
  | JVal.jnull, JVal.jnum _ => isFalse (fun h => JVal.noConfusion h)
  | JVal.jnull, JVal.jstr _ => isFalse (fun h => JVal.noConfusion h)
  | JVal.jnull, JVal.jobj _ => isFalse (fun h => JVal.noConfusion h)
  | JVal.jbool _, JVal.jnull => isFalse (fun h => JVal.noConfusion h)
  | JVal.jbool a, JVal.jbool b =>
    match decEq a b with
    | isTrue h => isTrue (by rw [h])
    | isFalse h => isFalse (fun hh => h (JVal.jbool.inj hh))
  | JVal.jbool _, JVal.jnum _ => isFalse (fun h => JVal.noConfusion h)
  | JVal.jbool _, JVal.jstr _ => isFalse (fun h => JVal.noConfusion h)
  | JVal.jbool _, JVal.jobj _ => isFalse (fun h => JVal.noConfusion h)
  | JVal.jnum _, JVal.jnull => isFalse (fun h => JVal.noConfusion h)
  | JVal.jnum _, JVal.jbool _ => isFalse (fun h => JVal.noConfusion h)
  | JVal.jnum a, JVal.jnum b =>
    match decEq a b with
    | isTrue h => isTrue (by rw [h])
    | isFalse h => isFalse (fun hh => h (JVal.jnum.inj hh))
  | JVal.jnum _, JVal.jstr _ => isFalse (fun h => JVal.noConfusion h)
  | JVal.jnum _, JVal.jobj _ => isFalse (fun h => JVal.noConfusion h)
  | JVal.jstr _, JVal.jnull => isFalse (fun h => JVal.noConfusion h)
  | JVal.jstr _, JVal.jbool _ => isFalse (fun h => JVal.noConfusion h)
  | JVal.jstr _, JVal.jnum _ => isFalse (fun h => JVal.noConfusion h)
  | JVal.jstr a, JVal.jstr b =>
    match decEq a b with
    | isTrue h => isTrue (by rw [h])
    | isFalse h => isFalse (fun hh => h (JVal.jstr.inj hh))
  | JVal.jstr _, JVal.jobj _ => isFalse (fun h => JVal.noConfusion h)
  | JVal.jobj _, JVal.jnull => isFalse (fun h => JVal.noConfusion h)
  | JVal.jobj _, JVal.jbool _ => isFalse (fun h => JVal.noConfusion h)
  | JVal.jobj _, JVal.jnum _ => isFalse (fun h => JVal.noConfusion h)
  | JVal.jobj _, JVal.jstr _ => isFalse (fun h => JVal.noConfusion h)
  | JVal.jobj a, JVal.jobj b =>
    match jfieldsDecEq a b with
    | isTrue h => isTrue (by rw [h])
    | isFalse h => isFalse (fun hh => h (JVal.jobj.inj hh))

/-- Decidable equality of object field lists. -/
def jfieldsDecEq : (xs ys : List (String × JVal)) → Decidable (xs = ys)
  | [], [] => isTrue rfl
  | [], _ :: _ => isFalse (fun h => List.noConfusion h)
  | _ :: _, [] => isFalse (fun h => List.noConfusion h)
  | (k1, v1) :: t1, (k2, v2) :: t2 =>
    match decEq k1 k2 with
    | isFalse h => isFalse (by intro he; injection he with hh _; injection hh with hk _; exact h hk)
    | isTrue hk =>
      match jvalDecEq v1 v2 with
      | isFalse h =>
        isFalse (by intro he; injection he with hh _; injection hh with _ hv; exact h hv)
      | isTrue hv =>
        match jfieldsDecEq t1 t2 with
        | isFalse h => isFalse (by intro he; injection he with _ ht; exact h ht)
        | isTrue ht => isTrue (by rw [hk, hv, ht])

end

instance : DecidableEq JVal := jvalDecEq

/-- Decidable equality for `Except`, so that concrete scenario facts can be
settled by evaluation. -/
def exceptDecEq {ε α : Type} [DecidableEq ε] [DecidableEq α] :
    (a b : Except ε α) → Decidable (a = b)
  | Except.ok a, Except.ok b =>
    match decEq a b with
    | isTrue h => isTrue (by rw [h])
    | isFalse h => isFalse (fun hh => h (Except.ok.inj hh))
  | Except.ok _, Except.error _ => isFalse (fun h => Except.noConfusion h)
  | Except.error _, Except.ok _ => isFalse (fun h => Except.noConfusion h)
  | Except.error a, Except.error b =>
    match decEq a b with
    | isTrue h => isTrue (by rw [h])
    | isFalse h => isFalse (fun hh => h (Except.error.inj hh))

instance {ε α : Type} [DecidableEq ε] [DecidableEq α] : DecidableEq (Except ε α) :=
  exceptDecEq

/-- JavaScript truthiness of a value (`NaN` is out of scope: numbers are `Int`). -/
def truthy : JVal → Bool
  | JVal.jnull => false
  | JVal.jbool b => b
  | JVal.jnum n => n != 0
  | JVal.jstr s => s != ""
  | JVal.jobj _ => true

/-- Truthiness of a possibly-absent property (`undefined` is falsy). -/
def truthyOpt : Option JVal → Bool
  | some v => truthy v
  | none => false

/-- First value stored under key `k`, i.e. JavaScript property read `ps[k]`. -/
def lookupProp : List (String × JVal) → String → Option JVal
  | [], _ => none
  | (k', v) :: rest, k => if k' = k then some v else lookupProp rest k

/-- JavaScript `k in ps` / `ps.hasOwnProperty(k)`. -/
def containsProp (ps : List (String × JVal)) (k : String) : Bool :=
  (lookupProp ps k).isSome

/-- JavaScript `delete ps[k]`. -/
def deleteProp : List (String × JVal) → String → List (String × JVal)
  | [], _ => []
  | (k', v) :: rest, k => if k' = k then deleteProp rest k else (k', v) :: deleteProp rest k

/-- Replace the value of every entry whose key is `k`. -/
def replaceProp : List (String × JVal) → String → JVal → List (String × JVal)
  | [], _, _ => []
  | (k', w) :: rest, k, v =>
    if k' = k then (k', v) :: replaceProp rest k v else (k', w) :: replaceProp rest k v

/-- JavaScript assignment `ps[k] = v`: overwrite in place or append a new entry. -/
def setProp (ps : List (String × JVal)) (k : String) (v : JVal) : List (String × JVal) :=
  if containsProp ps k then replaceProp ps k v else ps ++ [(k, v)]

/-- JavaScript object spread `{...a, ...b}`: keys of `a` keep their position but
`b`'s value wins on common keys; keys only in `b` are appended in order. -/
def spreadMerge (a b : List (String × JVal)) : List (String × JVal) :=
  a.map (fun p => match lookupProp b p.1 with
    | some v => (p.1, v)
    | none => p) ++
  b.filter (fun p => !(containsProp a p.1))

/-- Escaping of one character inside a JSON string literal (quote and backslash;
control characters are out of scope for the claims). -/
def jsonEscapeChar (c : Char) : String :=
  if c = '"' then "\\\"" else if c = '\\' then "\\\\" else c.toString

/-- Escaping of a string for inclusion in a JSON string literal. -/
def jsonEscape (s : String) : String :=
  String.join (s.data.map jsonEscapeChar)

mutual

/-- `JSON.stringify` for `JVal` (as used by `createKafkaEvent` on the
`properties` bags it serialises). -/
def jsonStringify : JVal → String
  | JVal.jnull => "null"
  | JVal.jbool true => "true"
  | JVal.jbool false => "false"
  | JVal.jnum n => toString n
  | JVal.jstr s => "\"" ++ jsonEscape s ++ "\""
  | JVal.jobj ps => "\x7b" ++ jsonFields ps ++ "\x7d"

/-- Comma-separated `"key":value` serialisation of an object's fields. -/
def jsonFields : List (String × JVal) → String
  | [] => ""
  | [(k, v)] => "\"" ++ jsonEscape k ++ "\":" ++ jsonStringify v
  | (k, v) :: rest => "\"" ++ jsonEscape k ++ "\":" ++ jsonStringify v ++ "," ++ jsonFields rest

end

/-- The raw input event (`PipelineEvent` in `types.ts`): `token` and `team_id`
are optional, `properties` may be absent. -/
structure PipelineEvent where
  token : Option String
  team_id : Option Int
  uuid : String
  event : String
  distinct_id : String
  properties : Option (List (String × JVal))
  deriving DecidableEq

/-- The runner's working event (`PluginEvent`): `team_id` is resolved and the
properties bag always exists (see the `EventPipelineRunnerV2` constructor). -/
structure PluginEvent where
  uuid : String
  event : String
  distinct_id : String
  team_id : Int
  properties : List (String × JVal)
  deriving DecidableEq

/-- The `Team` fields the runner reads.  `heatmaps_opt_in` is nullable in the
database, hence `Option Bool` (the code checks `!== false`). -/
structure Team where
  id : Int
  project_id : Int
  anonymize_ips : Bool
  heatmaps_opt_in : Option Bool
  person_processing_opt_out : Bool
  deriving DecidableEq

/-- The `Person` fields `createKafkaEvent` reads from the person returned by
`PersonState.update`. -/
structure Person where
  uuid : String
  created_at : String
  properties : List (String × JVal)
  force_upgrade : Bool
  deriving DecidableEq

/-- `EventDroppedError`: the typed drop exception.  `message` is only the JS
`Error.message` and is not modelled. -/
structure DroppedErr where
  ingestionWarning : String
  doNotSendToDLQ : Bool
  ingestionWarningDetails : List (String × JVal)
  deriving DecidableEq

/-- One record queued on the `KAFKA_INGESTION_WARNINGS` topic.  The source
serialises this object (with `details` JSON-stringified) before producing; we
keep it structured. -/
structure Warning where
  team_id : Option Int
  type : String
  source : String
  details : List (String × JVal)
  timestamp : String
  deriving DecidableEq

/-- The enriched output record built by `createKafkaEvent` (`RawKafkaEvent`). -/
structure RawKafkaEvent where
  uuid : String
  event : String
  properties : String
  timestamp : String
  team_id : Int
  project_id : Int
  distinct_id : String
  elements_chain : String
  created_at : String
  person_id : String
  person_properties : String
  person_created_at : String
  person_mode : String
  deriving DecidableEq

/-- Payload of a produced Kafka message: either a full enriched record or a
heatmap sub-event (kept structured instead of `Buffer.from(JSON.stringify(..))`). -/
inductive KafkaValue where
  | raw : RawKafkaEvent → KafkaValue
  | json : JVal → KafkaValue
  deriving DecidableEq

/-- A message handed to `kafkaProducer.produce`. -/
structure TopicMsg where
  topic : String
  key : String
  value : KafkaValue
  deriving DecidableEq

/-- How the producer settles a `produce()` call: success, rejection with
`MessageSizeTooLarge`, or rejection with any other error. -/
inductive ProduceOutcome where
  | ok : ProduceOutcome
  | sizeTooLarge : ProduceOutcome
  | other : String → ProduceOutcome
  deriving DecidableEq

/-- Trace tags for the external processing steps a run performed. -/
inductive StepTag where
  | cookieless
  | transform
  | personUpdate
  | groups
  | upsertGroup
  | firstEventIngestion
  | heatmaps
  deriving DecidableEq

/-- Observable outcome of one `run()` call: the drop counter sample (if any),
the transformation-drop counter, the queued ingestion warnings, the queued
produce calls, promise rejections left for the consumer, the trace of external
steps, and the `EventDroppedError` rethrown by `run()` (if any). -/
structure RunResult where
  dropCause : Option String := none
  transformDropped : Bool := false
  warnings : List Warning := []
  messages : List TopicMsg := []
  asyncErrors : List String := []
  trace : List StepTag := []
  error : Option DroppedErr := none
  deriving DecidableEq

/-- Modelled from the spec: `MAX_GROUP_TYPES_PER_TEAM` is imported from
`services/group-type-manager` which is not among the provided sources; the spec
(§3, §6) fixes its default at 5. -/
def MAX_GROUP_TYPES_PER_TEAM : Nat := 5

/-- Modelled from the spec: `sanitizeString` from `utils/db/utils` is not among
the provided sources.  Per §4.3, a token is sanitized so that "embedded null
bytes cause lookup failure, not crash": null bytes are replaced by the Unicode
replacement character. -/
def sanitizeString (s : String) : String :=
  String.mk (s.data.map (fun c => if c = '\x00' then '�' else c))

/-- Modelled from the spec: `UUID.validateString` from `utils/utils` is not
among the provided sources.  Per §3, the event `uuid` "must parse as a UUID":
canonical hyphenated form, 36 characters, hyphens at positions 8, 13, 18 and
23, hexadecimal digits (either case) elsewhere. -/
def isUuidChar (c : Char) : Bool :=
  c.isDigit || ('a' ≤ c && c ≤ 'f') || ('A' ≤ c && c ≤ 'F')

/-- Validity of an event uuid; see `isUuidChar`. -/
def isValidUuid (s : String) : Bool :=
  s.data.length == 36 &&
  (List.range 36).all (fun i =>
    match s.data.get? i with
    | none => false
    | some c =>
      if i == 8 || i == 13 || i == 18 || i == 23 then c == '-' else isUuidChar c)

/-- The collaborators of `EventPipelineRunnerV2` that live outside the provided
sources, as explicit functions: team manager, skip-tokens config, cookieless
manager, hog transformer, AI-event processor, event-normalisation utilities,
`PersonState`, group-type manager, heatmap extractor, elements-chain builder,
serialisation helpers, clock, producer behaviour, and topic configuration. -/
structure Env where
  fetchTeam : Int → Option Team
  getTeamByToken : String → Option Team
  skipByToken : String → List String
  cookielessProcess : PluginEvent → Option PluginEvent
  transform : PluginEvent → Option PluginEvent
  processAiEventFn : PluginEvent → Except Unit PluginEvent
  sanitizeEventName : String → String
  normalizeEventFn : PluginEvent → PluginEvent
  normalizeProcessPerson : PluginEvent → Bool → PluginEvent
  parseEventTimestamp : PluginEvent → String
  personStateUpdate : PluginEvent → Int → String → String → Bool → Person
  fetchGroupTypeIndex : Int → Int → JVal → Option Nat
  extractHeatmapData : PluginEvent → Except Unit (Option (List JVal))
  getElementsChain : List (String × JVal) → Except Unit String
  safeClickhouseString : String → String
  formatClickhouse : String → String
  formatClickhouseSecond : String → String
  nowClickhouse : String
  produceOutcome : TopicMsg → ProduceOutcome
  heatmapsTopic : String
  mainTopic : String
  exceptionsTopic : String

/-- Modelled from the spec: the shared `captureIngestionWarning` utility from
`utils/ingestion-warnings` (used on the oversize path) is not among the provided
sources.  Per §4.11 and §6 it emits one record
`\x7b team_id, type, source: "plugin-server", details, timestamp \x7d` on the
ingestion-warnings topic. -/
def sharedCaptureIngestionWarning (env : Env) (teamId : Int) (warningType : String)
    (details : List (String × JVal)) : Warning :=
  { team_id := some teamId, type := warningType, source := "plugin-server",
    details := details, timestamp := env.nowClickhouse }

/-- The event object built in the `EventPipelineRunnerV2` constructor:
`\x7b ...originalEvent, properties: \x7b ...(originalEvent.properties ?? \x7b\x7d) \x7d,
team_id: originalEvent.team_id ?? -1 \x7d`. -/
def initEvent (orig : PipelineEvent) : PluginEvent :=
  { uuid := orig.uuid, event := orig.event, distinct_id := orig.distinct_id,
    team_id := orig.team_id.getD (-1), properties := orig.properties.getD [] }

/-- The event after `_run` assigns `this.event.team_id = this.team.id`. -/
def initEventWithTeam (orig : PipelineEvent) (team : Team) : PluginEvent :=
  { initEvent orig with team_id := team.id }

/-- JavaScript truthiness of the optional numeric `team_id` (`if (team_id)`). -/
def teamIdTruthy : Option Int → Bool
  | some n => n != 0
  | none => false

/-- JavaScript truthiness of the optional `token` (`if (token)`). -/
def tokenTruthy : Option String → Bool
  | some s => s != ""
  | none => false

/-- `getTeam()`: a truthy `team_id` is looked up by id; otherwise a truthy
`token` is sanitized and looked up by token; otherwise no team. -/
def getTeam (env : Env) (orig : PipelineEvent) : Option Team :=
  if teamIdTruthy orig.team_id then env.fetchTeam (orig.team_id.getD 0)
  else if tokenTruthy orig.token then env.getTeamByToken (sanitizeString (orig.token.getD ""))
  else none

/-- The details object built by the private `captureIngestionWarning` method:
`\x7b eventUuid, event, distinctId, ..._details \x7d`. -/
def eventWarningDetails (ev : PluginEvent) (extra : List (String × JVal)) :
    List (String × JVal) :=
  spreadMerge
    [("eventUuid", JVal.jstr ev.uuid), ("event", JVal.jstr ev.event),
     ("distinctId", JVal.jstr ev.distinct_id)]
    extra

/-- The record queued by the private `captureIngestionWarning` method. -/
def captureWarning (env : Env) (teamId : Option Int) (ev : PluginEvent)
    (warningType : String) (extra : List (String × JVal)) : Warning :=
  { team_id := teamId, type := warningType, source := "plugin-server",
    details := eventWarningDetails ev extra, timestamp := env.nowClickhouse }

/-- The extra detail passed for a `$$client_ingestion_warning` event: the
`message` key is present only when the property exists (JSON.stringify drops
keys whose value is `undefined`). -/
def clientWarningExtra (ev : PluginEvent) : List (String × JVal) :=
  match lookupProp ev.properties "$$client_ingestion_warning_message" with
  | some v => [("message", v)]
  | none => []

/-- Whether the per-token skip list of `eventsToSkipPersonsProcessingByToken`
contains this event's distinct id. -/
def skipListHit (env : Env) (orig : PipelineEvent) (ev : PluginEvent) : Bool :=
  match orig.token with
  | some t => (env.skipByToken t).contains ev.distinct_id
  | none => false

/-- The event names rejected when person processing is disabled. -/
def personEventNames : List String :=
  ["$identify", "$create_alias", "$merge_dangerously", "$groupidentify"]

/-- The overrides at the top of `validatePersonProcessing()`: team-level
opt-out and the per-token skip list each force
`$process_person_profile = false` on the event. -/
def forcedProcessPersonEvent (env : Env) (orig : PipelineEvent) (team : Team)
    (ev : PluginEvent) : PluginEvent :=
  let ev1 := if team.person_processing_opt_out then
      { ev with properties := setProp ev.properties "$process_person_profile" (JVal.jbool false) }
    else ev
  if skipListHit env orig ev1 then
    { ev1 with properties := setProp ev1.properties "$process_person_profile" (JVal.jbool false) }
  else ev1

/-- `validatePersonProcessing()`: after the forced overrides, a strict `false`
`$process_person_profile` either drops the person-related event names
(`doNotSendToDLQ`) or disables person processing; a present non-boolean value
only queues an `invalid_process_person_profile` warning and continues.  On
success returns the (possibly rewritten) event, the `shouldProcessPerson` flag
and the queued warnings; on drop also returns the event state at the throw site
(the catch block in `run()` reads it). -/
def validatePersonProcessing (env : Env) (orig : PipelineEvent) (team : Team)
    (ev : PluginEvent) :
    Except (DroppedErr × PluginEvent) (PluginEvent × Bool × List Warning) :=
  let ev2 := forcedProcessPersonEvent env orig team ev
  let ppp := lookupProp ev2.properties "$process_person_profile"
  if ppp = some (JVal.jbool false) then
    if ev2.event ∈ personEventNames then
      Except.error
        ({ ingestionWarning := "invalid_event_when_process_person_profile_is_false",
           doNotSendToDLQ := true, ingestionWarningDetails := [] }, ev2)
    else
      Except.ok (env.normalizeProcessPerson ev2 false, false, [])
  else
    match ppp with
    | some (JVal.jbool _) => Except.ok (ev2, true, [])
    | none => Except.ok (ev2, true, [])
    | some v =>
      Except.ok (ev2, true,
        [captureWarning env (some team.id) ev2 "invalid_process_person_profile"
          [("$process_person_profile", v)]])

/-- `normalizeEvent()`: sanitize the event name, run the normalisation
utilities, and parse the timestamp. -/
def normalizeEvent (env : Env) (ev : PluginEvent) (shouldProcessPerson : Bool) :
    PluginEvent × String :=
  let e1 := { ev with event := env.sanitizeEventName ev.event }
  let e2 := env.normalizeEventFn e1
  let e3 := env.normalizeProcessPerson e2 shouldProcessPerson
  (e3, env.parseEventTimestamp e3)

/-- `processAiEvent()`: only `$ai_generation` / `$ai_embedding` are processed;
a failure is swallowed and the event continues unchanged. -/
def processAiEvent (env : Env) (ev : PluginEvent) : PluginEvent :=
  if ev.event = "$ai_generation" ∨ ev.event = "$ai_embedding" then
    match env.processAiEventFn ev with
    | Except.ok e => e
    | Except.error _ => ev
  else ev

/-- `processGroups()`: skipped when person processing is disabled; otherwise
resolves each `$groups` entry to a `$group_<index>` property, then (for
`$groupidentify` with truthy `$group_type` and `$group_key`) upserts the group.
The upsert's store effects are abstracted to a trace tag. -/
def processGroups (env : Env) (team : Team) (ev : PluginEvent)
    (shouldProcessPerson : Bool) : PluginEvent × List StepTag :=
  if shouldProcessPerson = false then (ev, [])
  else
    let entries := match lookupProp ev.properties "$groups" with
      | some (JVal.jobj m) => m
      | _ => []
    let props1 := entries.foldl (fun acc p =>
      match env.fetchGroupTypeIndex team.id team.project_id (JVal.jstr p.1) with
      | some i => setProp acc ("$group_" ++ toString i) p.2
      | none => acc) ev.properties
    let ev1 := { ev with properties := props1 }
    if ev1.event = "$groupidentify" then
      if truthyOpt (lookupProp ev1.properties "$group_type") = false ∨
         truthyOpt (lookupProp ev1.properties "$group_key") = false then
        (ev1, [StepTag.groups])
      else
        match env.fetchGroupTypeIndex team.id team.project_id
            ((lookupProp ev1.properties "$group_type").getD JVal.jnull) with
        | some _ => (ev1, [StepTag.groups, StepTag.upsertGroup])
        | none => (ev1, [StepTag.groups])
    else (ev1, [StepTag.groups])

/-- The messages and warnings of `processHeatmaps()`: unless the team opted out
(`heatmaps_opt_in !== false`), extraction either yields sub-events — one message
per sub-event on the heatmaps topic, keyed by the event uuid — or throws, which
is caught and queued as an `invalid_heatmap_data` warning. -/
def heatmapMessages (env : Env) (team : Team) (ev : PluginEvent) :
    List TopicMsg × List Warning :=
  if team.heatmaps_opt_in ≠ some false then
    match env.extractHeatmapData ev with
    | Except.ok xs =>
      ((xs.getD []).map (fun v =>
        { topic := env.heatmapsTopic, key := ev.uuid, value := KafkaValue.json v }), [])
    | Except.error _ =>
      ([], [captureWarning env (some team.id) ev "invalid_heatmap_data"
        [("eventUuid", JVal.jstr ev.uuid)]])
  else ([], [])

/-- `processHeatmaps()`: queue the extracted messages (their produce promises
have no catch handler, so any rejection is left for the consumer), then always
delete `$heatmap_data` from the outgoing properties. -/
def processHeatmaps (env : Env) (team : Team) (ev : PluginEvent) :
    PluginEvent × List TopicMsg × List Warning × List String :=
  let mw := heatmapMessages env team ev
  let errs := mw.1.filterMap (fun m =>
    match env.produceOutcome m with
    | ProduceOutcome.ok => none
    | ProduceOutcome.sizeTooLarge => some "MessageSizeTooLarge"
    | ProduceOutcome.other s => some s)
  ({ ev with properties := deleteProp ev.properties "$heatmap_data" }, mw.1, mw.2, errs)

/-- The `$ip` anonymisation at the top of `createKafkaEvent()`: drop `$ip` when
it is truthy and the team has `anonymize_ips`. -/
def ipStrippedProperties (team : Team) (props : List (String × JVal)) :
    List (String × JVal) :=
  if truthyOpt (lookupProp props "$ip") && team.anonymize_ips then deleteProp props "$ip"
  else props

/-- The properties bag `createKafkaEvent()` serialises into the record: after
`$ip` anonymisation and — when person processing is disabled — after deleting
`$group_0 .. $group_<MAX_GROUP_TYPES_PER_TEAM - 1>`. -/
def assembledProperties (team : Team) (shouldProcessPerson : Bool)
    (props : List (String × JVal)) : List (String × JVal) :=
  let p1 := ipStrippedProperties team props
  if shouldProcessPerson then p1
  else (List.range MAX_GROUP_TYPES_PER_TEAM).foldl
    (fun acc i => deleteProp acc ("$group_" ++ toString i)) p1

/-- The event's `$set` map (`this.event.properties?.$set || \x7b\x7d`); a
non-object value contributes no keys to the spread. -/
def setMapOf (props : List (String × JVal)) : List (String × JVal) :=
  match lookupProp props "$set" with
  | some (JVal.jobj m) => m
  | _ => []

/-- `eventPersonProperties` in `createKafkaEvent()`: with person processing the
post-event person snapshot spread with the event's own `$set`
(`JSON.stringify(\x7b ...this.person.properties, ...$set \x7d)`), otherwise the
literal string `"\x7b\x7d"`. -/
def eventPersonProperties (person : Person) (shouldProcessPerson : Bool)
    (props : List (String × JVal)) : String :=
  if shouldProcessPerson then
    jsonStringify (JVal.jobj (spreadMerge person.properties (setMapOf props)))
  else "\x7b\x7d"

/-- The `personMode` selection in `createKafkaEvent()`: `force_upgrade` wins,
then `propertyless` when person processing is disabled, else `full`. -/
def personModeOf (person : Person) (shouldProcessPerson : Bool) : String :=
  if person.force_upgrade then "force_upgrade"
  else if shouldProcessPerson = false then "propertyless"
  else "full"

/-- The elements chain: `getElementsChain(properties)` with errors swallowed to
the empty string (the catch block only logs). -/
def elementsChainOf (env : Env) (props : List (String × JVal)) : String :=
  match env.getElementsChain props with
  | Except.ok s => s
  | Except.error _ => ""

/-- `createKafkaEvent()`: assemble the enriched record.  The elements chain is
computed after `$ip` anonymisation but before the `$group_i` deletions, which
matches the aliasing of `this.event.properties` in the source. -/
def createKafkaEvent (env : Env) (team : Team) (person : Person)
    (shouldProcessPerson : Bool) (ev : PluginEvent) (ts : String) : RawKafkaEvent :=
  { uuid := ev.uuid,
    event := env.safeClickhouseString ev.event,
    properties := jsonStringify (JVal.jobj (assembledProperties team shouldProcessPerson ev.properties)),
    timestamp := env.formatClickhouse ts,
    team_id := team.id,
    project_id := team.project_id,
    distinct_id := env.safeClickhouseString ev.distinct_id,
    elements_chain := env.safeClickhouseString (elementsChainOf env (ipStrippedProperties team ev.properties)),
    created_at := env.nowClickhouse,
    person_id := person.uuid,
    person_properties := eventPersonProperties person shouldProcessPerson ev.properties,
    person_created_at := env.formatClickhouseSecond person.created_at,
    person_mode := personModeOf person shouldProcessPerson }

/-- The message `produceEventToKafka()` hands to the producer: main enriched
topic, keyed by the record's uuid. -/
def mainTopicMessage (env : Env) (kafkaEvent : RawKafkaEvent) : TopicMsg :=
  { topic := env.mainTopic, key := kafkaEvent.uuid, value := KafkaValue.raw kafkaEvent }

/-- `produceEventToKafka()`: the produce promise's catch turns a
`MessageSizeTooLarge` rejection into one `message_size_too_large` warning (via
the shared ingestion-warning utility) and resolves; any other rejection is
rethrown and left for the consumer. -/
def produceEventToKafka (env : Env) (kafkaEvent : RawKafkaEvent) :
    List TopicMsg × List Warning × List String :=
  let m := mainTopicMessage env kafkaEvent
  match env.produceOutcome m with
  | ProduceOutcome.ok => ([m], [], [])
  | ProduceOutcome.sizeTooLarge =>
    ([m],
     [sharedCaptureIngestionWarning env kafkaEvent.team_id "message_size_too_large"
       [("eventUuid", JVal.jstr kafkaEvent.uuid),
        ("distinctId", JVal.jstr kafkaEvent.distinct_id)]],
     [])
  | ProduceOutcome.other e => ([m], [], [e])

/-- `produceExceptionSymbolificationEventStep()`: exceptions symbolification
topic, keyed by the record's uuid; its catch logs and rethrows, so every
rejection is left for the consumer. -/
def produceExceptionSymbolificationEventStep (env : Env) (kafkaEvent : RawKafkaEvent) :
    List TopicMsg × List String :=
  let m : TopicMsg :=
    { topic := env.exceptionsTopic, key := kafkaEvent.uuid, value := KafkaValue.raw kafkaEvent }
  match env.produceOutcome m with
  | ProduceOutcome.ok => ([m], [])
  | ProduceOutcome.sizeTooLarge => ([m], ["MessageSizeTooLarge"])
  | ProduceOutcome.other e => ([m], [e])

/-- The tail of `_run()`: a `$exception` event without `$sentry_event_id` goes
to the symbolification topic instead of the main topic. -/
def routeAndProduce (env : Env) (ev : PluginEvent) (kafkaEvent : RawKafkaEvent) :
    List TopicMsg × List Warning × List String :=
  if ev.event = "$exception" ∧ containsProp ev.properties "$sentry_event_id" = false then
    let me := produceExceptionSymbolificationEventStep env kafkaEvent
    (me.1, [], me.2)
  else produceEventToKafka env kafkaEvent

/-- The messages that actually reach their topic: queued produce calls whose
outcome is success. -/
def deliveredMessages (env : Env) (msgs : List TopicMsg) : List TopicMsg :=
  msgs.filter (fun m =>
    match env.produceOutcome m with
    | ProduceOutcome.ok => true
    | _ => false)

/-- `_run()`: the per-event state machine.  A thrown `EventDroppedError` is
returned as `Except.error` together with the team id and event state the catch
block in `run()` reads; both throw sites occur before any side effect is
queued. -/
def runInner (env : Env) (orig : PipelineEvent) :
    Except (DroppedErr × Option Int × PluginEvent) RunResult :=
  match getTeam env orig with
  | none => Except.ok { dropCause := some "invalid_token" }
  | some team =>
    let ev1 := initEventWithTeam orig team
    if ev1.event = "$$client_ingestion_warning" then
      Except.ok { warnings :=
        [captureWarning env (some team.id) ev1 "client_ingestion_warning" (clientWarningExtra ev1)] }
    else if isValidUuid ev1.uuid = false then
      Except.error
        ({ ingestionWarning := "invalid_event_uuid", doNotSendToDLQ := false,
           ingestionWarningDetails := [] }, some team.id, ev1)
    else
      match validatePersonProcessing env orig team ev1 with
      | Except.error (err, evErr) => Except.error (err, some team.id, evErr)
      | Except.ok (ev2, shouldPP, wPP) =>
        if ev2.event = "$$heatmap" then
          let norm := normalizeEvent env ev2 shouldPP
          let hm := processHeatmaps env team norm.1
          Except.ok { warnings := wPP ++ hm.2.2.1, messages := hm.2.1,
                      asyncErrors := hm.2.2.2, trace := [StepTag.heatmaps] }
        else
          match env.cookielessProcess ev2 with
          | none =>
            Except.ok { warnings := wPP, transformDropped := true, trace := [StepTag.cookieless] }
          | some ev3 =>
            match env.transform ev3 with
            | none =>
              Except.ok { warnings := wPP, transformDropped := true,
                          trace := [StepTag.cookieless, StepTag.transform] }
            | some ev4 =>
              let ev5 := processAiEvent env ev4
              let norm := normalizeEvent env ev5 shouldPP
              let ts := norm.2
              let person := env.personStateUpdate norm.1 norm.1.team_id norm.1.distinct_id ts shouldPP
              let gr := processGroups env team norm.1 shouldPP
              let hm := processHeatmaps env team gr.1
              let kafkaEvent := createKafkaEvent env team person shouldPP hm.1 ts
              let out := routeAndProduce env hm.1 kafkaEvent
              Except.ok
                { warnings := wPP ++ hm.2.2.1 ++ out.2.1,
                  messages := hm.2.1 ++ out.1,
                  asyncErrors := hm.2.2.2 ++ out.2.2,
                  trace := [StepTag.cookieless, StepTag.transform, StepTag.personUpdate] ++ gr.2 ++
                    [StepTag.firstEventIngestion, StepTag.heatmaps] }

/-- `run()`: on an `EventDroppedError`, queue the corresponding ingestion
warning and rethrow; otherwise return `_run()`'s outcome. -/
def pipelineRun (env : Env) (orig : PipelineEvent) : RunResult :=
  match runInner env orig with
  | Except.ok r => r
  | Except.error (err, teamId, ev) =>
    { warnings := [captureWarning env teamId ev err.ingestionWarning err.ingestionWarningDetails],
      error := some err }

theorem lookupProp_append (xs ys : List (String × JVal)) (k : String) :
    lookupProp (xs ++ ys) k =
      match lookupProp xs k with
      | some v => some v
      | none => lookupProp ys k := by
  induction xs with
  | nil => simp [lookupProp]
  | cons p t ih =>
    obtain ⟨k0, v0⟩ := p
    by_cases h : k0 = k
    · simp [lookupProp, h]
    · simp [lookupProp, h, ih]

theorem lookupProp_deleteProp (ps : List (String × JVal)) (k k' : String) :
    lookupProp (deleteProp ps k') k = if k = k' then none else lookupProp ps k := by
  induction ps with
  | nil => simp [deleteProp, lookupProp]
  | cons p t ih =>
    obtain ⟨k0, v0⟩ := p
    by_cases h0 : k0 = k'
    · subst h0
      by_cases h : k = k0
      · subst h
        simp [deleteProp, ih]
      · simp [deleteProp, lookupProp, h, Ne.symm h, ih]
    · by_cases h : k0 = k
      · subst h
        simp [deleteProp, lookupProp, h0, Ne.symm h0]
      · simp [deleteProp, lookupProp, h0, h, ih]

theorem lookupProp_deleteProp_of_none (ps : List (String × JVal)) (k k' : String)
    (h : lookupProp ps k = none) : lookupProp (deleteProp ps k') k = none := by
  rw [lookupProp_deleteProp]
  split <;> simp [h]

theorem lookupProp_foldl_deleteProp_of_none (keys : List String)
    (ps : List (String × JVal)) (k : String) (h : lookupProp ps k = none) :
    lookupProp (keys.foldl deleteProp ps) k = none := by
  induction keys generalizing ps with
  | nil => simpa using h
  | cons a t ih => exact ih _ (lookupProp_deleteProp_of_none _ _ _ h)

theorem lookupProp_foldl_deleteProp_of_mem (keys : List String)
    (ps : List (String × JVal)) (k : String) (h : k ∈ keys) :
    lookupProp (keys.foldl deleteProp ps) k = none := by
  induction keys generalizing ps with
  | nil => cases h
  | cons a t ih =>
    rcases List.mem_cons.mp h with rfl | h
    · exact lookupProp_foldl_deleteProp_of_none t _ k
        (by rw [lookupProp_deleteProp]; simp)
    · exact ih _ h

theorem lookupProp_map_spread (a b : List (String × JVal)) (k : String) :
    lookupProp (a.map (fun p => match lookupProp b p.1 with
      | some v => (p.1, v)
      | none => p)) k =
      match lookupProp a k with
      | none => none
      | some w => some ((lookupProp b k).getD w) := by
  induction a with
  | nil => simp [lookupProp]
  | cons p t ih =>
    obtain ⟨k0, v0⟩ := p
    by_cases h : k0 = k
    · subst h
      cases hb : lookupProp b k0 <;> simp [lookupProp, hb]
    · cases hb : lookupProp b k0 <;> simp [lookupProp, h, hb, ih]

theorem lookupProp_filter_of_none (a b : List (String × JVal)) (k : String)
    (h : lookupProp a k = none) :
    lookupProp (b.filter (fun p => !(containsProp a p.1))) k = lookupProp b k := by
  induction b with
  | nil => simp
  | cons p t ih =>
    obtain ⟨k0, v0⟩ := p
    by_cases hk : k0 = k
    · subst hk
      simp [List.filter_cons, containsProp, h, lookupProp, ih]
    · cases hc : containsProp a k0 <;>
        simp [List.filter_cons, hc, lookupProp, hk, ih]

theorem lookupProp_filter_of_some (a b : List (String × JVal)) (k : String)
    (h : containsProp a k = true) :
    lookupProp (b.filter (fun p => !(containsProp a p.1))) k = none := by
  induction b with
  | nil => simp [lookupProp]
  | cons p t ih =>
    obtain ⟨k0, v0⟩ := p
    by_cases hk : k0 = k
    · subst hk
      simp [List.filter_cons, h, ih]
    · cases hc : containsProp a k0 <;>
        simp [List.filter_cons, hc, lookupProp, hk, ih]

theorem lookupProp_spreadMerge (a b : List (String × JVal)) (k : String) :
    lookupProp (spreadMerge a b) k =
      match lookupProp b k with
      | some v => some v
      | none => lookupProp a k := by
  unfold spreadMerge
  rw [lookupProp_append, lookupProp_map_spread]
  cases ha : lookupProp a k with
  | none =>
    rw [lookupProp_filter_of_none a b k ha]
    cases hb : lookupProp b k <;> simp
  | some w =>
    cases hb : lookupProp b k <;> simp

theorem lookupProp_replaceProp_self (ps : List (String × JVal)) (k : String) (v : JVal) :
    lookupProp (replaceProp ps k v) k = (lookupProp ps k).map (fun _ => v) := by
  induction ps with
  | nil => simp [replaceProp, lookupProp]
  | cons p t ih =>
    obtain ⟨k0, v0⟩ := p
    by_cases h : k0 = k <;> simp [replaceProp, lookupProp, h, ih]

theorem lookupProp_setProp_self (ps : List (String × JVal)) (k : String) (v : JVal) :
    lookupProp (setProp ps k v) k = some v := by
  cases hl : lookupProp ps k with
  | some w => simp [setProp, containsProp, hl, lookupProp_replaceProp_self]
  | none => simp [setProp, containsProp, hl, lookupProp_append, lookupProp]

/-- A syntactically valid event uuid used by the concrete scenarios. -/
def validUuidStr : String := "11111111-1111-1111-1111-111111111111"

/-- A concrete team for the scenario environments (heatmaps opted out,
no person-processing opt-out). -/
def sampleTeam : Team :=
  { id := 2, project_id := 20, anonymize_ips := false, heatmaps_opt_in := some false,
    person_processing_opt_out := false }

/-- A concrete resolved person for the scenario environments. -/
def samplePerson : Person :=
  { uuid := "person-uuid", created_at := "2024-01-01",
    properties := [("plan", JVal.jstr "free")], force_upgrade := false }

/-- A concrete environment: team 2 resolvable by id and by token `"tok"`, all
normalisation collaborators behaving as identities, every produce succeeding. -/
def sampleEnv : Env :=
  { fetchTeam := fun i => if i = 2 then some sampleTeam else none,
    getTeamByToken := fun t => if t = "tok" then some sampleTeam else none,
    skipByToken := fun _ => [],
    cookielessProcess := fun e => some e,
    transform := fun e => some e,
    processAiEventFn := fun e => Except.ok e,
    sanitizeEventName := fun s => s,
    normalizeEventFn := fun e => e,
    normalizeProcessPerson := fun e _ => e,
    parseEventTimestamp := fun _ => "2024-01-01 00:00:00",
    personStateUpdate := fun _ _ _ _ _ => samplePerson,
    fetchGroupTypeIndex := fun _ _ _ => none,
    extractHeatmapData := fun _ => Except.ok none,
    getElementsChain := fun _ => Except.ok "",
    safeClickhouseString := fun s => s,
    formatClickhouse := fun s => s,
    formatClickhouseSecond := fun s => s,
    nowClickhouse := "2024-01-01 00:00:00",
    produceOutcome := fun _ => ProduceOutcome.ok,
    heatmapsTopic := "heatmaps_topic",
    mainTopic := "events_topic",
    exceptionsTopic := "exceptions_topic" }

/-- The `person_mode` values of the enriched records among a run's produced
messages. -/
def recordPersonModes (r : RunResult) : List String :=
  r.messages.filterMap (fun m =>
    match m.value with
    | KafkaValue.raw e => some e.person_mode
    | KafkaValue.json _ => none)

/-- The `person_properties` values of the enriched records among a run's
produced messages. -/
def recordPersonProps (r : RunResult) : List String :=
  r.messages.filterMap (fun m =>
    match m.value with
    | KafkaValue.raw e => some e.person_properties
    | KafkaValue.json _ => none)

/-- A person row in `force_upgrade` state, as `PersonState.update` can return
when person processing is disabled (the migration marker of spec §4.6). -/
def forceUpgradePerson : Person := { samplePerson with force_upgrade := true }

/-- `sampleEnv` whose person resolution yields a `force_upgrade` person. -/
def fuEnv : Env := { sampleEnv with personStateUpdate := fun _ _ _ _ _ => forceUpgradePerson }

/-- An event that disables person processing via `$process_person_profile = false`. -/
def fuEvent : PipelineEvent :=
  { token := some "tok", team_id := some 2, uuid := validUuidStr, event := "$pageview",
    distinct_id := "d1",
    properties := some [("$process_person_profile", JVal.jbool false)] }

/-- Claim C1 counterexample: an event assembled with
`$process_person_profile = false` whose resolved person row is in
`force_upgrade` state yields `person_mode = "force_upgrade"`, not
`"propertyless"` (while `person_properties` is still `"\x7b\x7d"`), because
`createKafkaEvent` gives `force_upgrade` precedence. -/
theorem claimC1_counterexample :
    recordPersonModes (pipelineRun fuEnv fuEvent) = ["force_upgrade"] ∧
    recordPersonProps (pipelineRun fuEnv fuEvent) = ["\x7b\x7d"] ∧
    "force_upgrade" ≠ "propertyless" := by decide

/-- Claim C1 (amended): for every event assembled with person processing
disabled, the enriched record has `person_properties = "\x7b\x7d"`, its
serialised properties bag lacks every `$group_0 .. $group_4` key, and
`person_mode` is `"propertyless"` unless the resolved person row is marked
`force_upgrade`, in which case it is `"force_upgrade"`. -/
theorem claimC1 (env : Env) (team : Team) (person : Person) (ev : PluginEvent) (ts : String) :
    (createKafkaEvent env team person false ev ts).person_properties = "\x7b\x7d" ∧
    (createKafkaEvent env team person false ev ts).person_mode =
      (if person.force_upgrade then "force_upgrade" else "propertyless") ∧
    (createKafkaEvent env team person false ev ts).properties =
      jsonStringify (JVal.jobj (assembledProperties team false ev.properties)) ∧
    (∀ i : Nat, i < MAX_GROUP_TYPES_PER_TEAM →
      lookupProp (assembledProperties team false ev.properties) ("$group_" ++ toString i) = none) := by
  refine ⟨by simp [createKafkaEvent, eventPersonProperties], ?_, rfl, ?_⟩
  · by_cases h : person.force_upgrade <;> simp [createKafkaEvent, personModeOf, h]
  · intro i hi
    unfold assembledProperties
    simp only [Bool.false_eq_true, if_false]
    rw [← List.foldl_map]
    exact lookupProp_foldl_deleteProp_of_mem _ _ _
      (List.mem_map.mpr ⟨i, List.mem_range.mpr hi, rfl⟩)

/-- A concrete working event with a `$set` map and a pre-set `$group_0`. -/
def samplePluginEvent : PluginEvent :=
  { uuid := validUuidStr, event := "$pageview", distinct_id := "d1", team_id := 2,
    properties := [("$set", JVal.jobj [("plan", JVal.jstr "pro")]),
                   ("$group_0", JVal.jstr "org1")] }

/-- Claim C1 witness: the amended theorem applied at a concrete assembly state
(group index 0). -/
theorem claimC1_witness :
    (0 < MAX_GROUP_TYPES_PER_TEAM ∧
      lookupProp (assembledProperties sampleTeam false samplePluginEvent.properties)
        ("$group_" ++ toString 0) = none) ∧
    (createKafkaEvent sampleEnv sampleTeam samplePerson false samplePluginEvent "ts").person_mode =
      "propertyless" :=
  ⟨⟨by decide,
    (claimC1 sampleEnv sampleTeam samplePerson samplePluginEvent "ts").2.2.2 0 (by decide)⟩,
   by decide⟩

/-- Claim C2: with person processing enabled, the enriched record's
`person_properties` is the serialisation of the resolved person's post-event
snapshot spread with the event's own `$set` map, where the `$set` values win on
common keys and all other keys come from the person snapshot. -/
theorem claimC2 (env : Env) (team : Team) (person : Person) (ev : PluginEvent) (ts : String) :
    (createKafkaEvent env team person true ev ts).person_properties =
      jsonStringify (JVal.jobj (spreadMerge person.properties (setMapOf ev.properties))) ∧
    (∀ k v, lookupProp (setMapOf ev.properties) k = some v →
      lookupProp (spreadMerge person.properties (setMapOf ev.properties)) k = some v) ∧
    (∀ k, lookupProp (setMapOf ev.properties) k = none →
      lookupProp (spreadMerge person.properties (setMapOf ev.properties)) k =
        lookupProp person.properties k) := by
  refine ⟨by simp [createKafkaEvent, eventPersonProperties], ?_, ?_⟩
  · intro k v h
    simp [lookupProp_spreadMerge, h]
  · intro k h
    simp [lookupProp_spreadMerge, h]

/-- Claim C2 witness: the theorem applied at a concrete assembly state; the
event's `$set` of `plan` overrides the person's `plan`. -/
theorem claimC2_witness :
    (lookupProp (setMapOf samplePluginEvent.properties) "plan" = some (JVal.jstr "pro") ∧
      lookupProp (spreadMerge samplePerson.properties (setMapOf samplePluginEvent.properties))
        "plan" = some (JVal.jstr "pro")) ∧
    (createKafkaEvent sampleEnv sampleTeam samplePerson true samplePluginEvent "ts").person_properties =
      jsonStringify (JVal.jobj (spreadMerge samplePerson.properties
        (setMapOf samplePluginEvent.properties))) :=
  ⟨⟨by decide,
    (claimC2 sampleEnv sampleTeam samplePerson samplePluginEvent "ts").2.1 "plan"
      (JVal.jstr "pro") (by decide)⟩,
   (claimC2 sampleEnv sampleTeam samplePerson samplePluginEvent "ts").1⟩

theorem forcedProcessPersonEvent_event (env : Env) (orig : PipelineEvent) (team : Team)
    (ev : PluginEvent) : (forcedProcessPersonEvent env orig team ev).event = ev.event := by
  unfold forcedProcessPersonEvent
  cases h1 : team.person_processing_opt_out <;> simp [h1] <;> split <;> rfl

theorem forcedProcessPersonEvent_ppp_of_opt_out (env : Env) (orig : PipelineEvent)
    (team : Team) (ev : PluginEvent) (hopt : team.person_processing_opt_out = true) :
    lookupProp (forcedProcessPersonEvent env orig team ev).properties
      "$process_person_profile" = some (JVal.jbool false) := by
  unfold forcedProcessPersonEvent
  simp only [hopt, if_true]
  split <;> simp [lookupProp_setProp_self]

theorem forcedProcessPersonEvent_id (env : Env) (orig : PipelineEvent) (team : Team)
    (ev : PluginEvent) (hopt : team.person_processing_opt_out = false)
    (hskip : skipListHit env orig ev = false) :
    forcedProcessPersonEvent env orig team ev = ev := by
  unfold forcedProcessPersonEvent
  simp [hopt, hskip]

/-- Claim C3: when the resolved team has `person_processing_opt_out = true`,
the effective `$process_person_profile` is forced to `false` regardless of the
event's own value — every event takes the disabled branch: the four
person-related event names are dropped with
`invalid_event_when_process_person_profile_is_false` and `doNotSendToDLQ`,
every other event continues with person processing disabled. -/
theorem claimC3 (env : Env) (orig : PipelineEvent) (team : Team) (ev : PluginEvent)
    (hopt : team.person_processing_opt_out = true) :
    (ev.event ∈ personEventNames →
      validatePersonProcessing env orig team ev =
        Except.error
          ({ ingestionWarning := "invalid_event_when_process_person_profile_is_false",
             doNotSendToDLQ := true, ingestionWarningDetails := [] },
           forcedProcessPersonEvent env orig team ev)) ∧
    (ev.event ∉ personEventNames →
      validatePersonProcessing env orig team ev =
        Except.ok (env.normalizeProcessPerson (forcedProcessPersonEvent env orig team ev) false,
          false, [])) := by
  have hppp := forcedProcessPersonEvent_ppp_of_opt_out env orig team ev hopt
  have hev := forcedProcessPersonEvent_event env orig team ev
  constructor
  · intro hmem
    unfold validatePersonProcessing
    simp [hppp, hev, hmem]
  · intro hmem
    unfold validatePersonProcessing
    simp [hppp, hev, hmem]

/-- A team that opted out of person processing. -/
def optOutTeam : Team := { sampleTeam with person_processing_opt_out := true }

/-- A concrete `$identify` working event. -/
def identifyPluginEvent : PluginEvent :=
  { uuid := validUuidStr, event := "$identify", distinct_id := "d1", team_id := 2,
    properties := [("$process_person_profile", JVal.jbool true)] }

/-- Claim C3 witness: the theorem applied to an opted-out team receiving
`$identify` that even asks for person processing. -/
theorem claimC3_witness :
    optOutTeam.person_processing_opt_out = true ∧
    validatePersonProcessing sampleEnv fuEvent optOutTeam identifyPluginEvent =
      Except.error
        ({ ingestionWarning := "invalid_event_when_process_person_profile_is_false",
           doNotSendToDLQ := true, ingestionWarningDetails := [] },
         forcedProcessPersonEvent sampleEnv fuEvent optOutTeam identifyPluginEvent) :=
  ⟨rfl, (claimC3 sampleEnv fuEvent optOutTeam identifyPluginEvent rfl).1 (by decide)⟩

/-- A raw event carrying a non-boolean `$process_person_profile`. -/
def c9Event : PipelineEvent :=
  { token := some "tok", team_id := some 2, uuid := validUuidStr, event := "$pageview",
    distinct_id := "d1", properties := some [("$process_person_profile", JVal.jstr "yes")] }

/-- The working event of `c9Event` after team resolution. -/
def c9PluginEvent : PluginEvent :=
  { uuid := validUuidStr, event := "$pageview", distinct_id := "d1", team_id := 2,
    properties := [("$process_person_profile", JVal.jstr "yes")] }

/-- Claim C9 counterexample: a run over an event whose
`$process_person_profile` is the string `"yes"` queues the
`invalid_process_person_profile` warning but is NOT dropped — no error, no drop
counter, and an enriched record is still produced to the main topic. -/
theorem claimC9_counterexample :
    (pipelineRun sampleEnv c9Event).error = none ∧
    (pipelineRun sampleEnv c9Event).dropCause = none ∧
    (pipelineRun sampleEnv c9Event).warnings.map Warning.type =
      ["invalid_process_person_profile"] ∧
    (pipelineRun sampleEnv c9Event).messages.map TopicMsg.topic = ["events_topic"] := by
  decide

/-- Claim C9 (amended): an event whose `$process_person_profile` is present but
neither boolean nor undefined (and not overridden by team opt-out or the skip
list) gets exactly one `invalid_process_person_profile` ingestion warning and
continues unchanged with person processing enabled — it is not dropped. -/
theorem claimC9 (env : Env) (orig : PipelineEvent) (team : Team) (ev : PluginEvent)
    (v : JVal)
    (hopt : team.person_processing_opt_out = false)
    (hskip : skipListHit env orig ev = false)
    (hv : lookupProp ev.properties "$process_person_profile" = some v)
    (hb : ∀ b : Bool, v ≠ JVal.jbool b) :
    validatePersonProcessing env orig team ev =
      Except.ok (ev, true,
        [captureWarning env (some team.id) ev "invalid_process_person_profile"
          [("$process_person_profile", v)]]) := by
  have hid := forcedProcessPersonEvent_id env orig team ev hopt hskip
  have hne : some v ≠ some (JVal.jbool false) := by
    intro h
    exact hb false (Option.some.inj h)
  unfold validatePersonProcessing
  rw [hid]
  simp only [hv, if_neg hne]

/-- Claim C9 witness: the amended theorem applied to the concrete event with
`$process_person_profile = "yes"`. -/
theorem claimC9_witness :
    lookupProp c9PluginEvent.properties "$process_person_profile" =
      some (JVal.jstr "yes") ∧
    validatePersonProcessing sampleEnv c9Event sampleTeam c9PluginEvent =
      Except.ok (c9PluginEvent, true,
        [captureWarning sampleEnv (some sampleTeam.id) c9PluginEvent
          "invalid_process_person_profile"
          [("$process_person_profile", JVal.jstr "yes")]]) :=
  ⟨by decide,
   claimC9 sampleEnv c9Event sampleTeam c9PluginEvent (JVal.jstr "yes")
     (by decide) (by decide) (by decide) (by decide)⟩

/-- Claim C4: when neither `team_id` nor `token` resolves to a team (including
both absent), the run only increments the drop counter with cause
`invalid_token` — no messages, no warnings, no error, no processing.  Moreover
a token is sanitized before lookup, and sanitization leaves no null byte, so
resolution fails without crashing. -/
theorem claimC4 (env : Env) (orig : PipelineEvent)
    (h1 : teamIdTruthy orig.team_id = true → env.fetchTeam (orig.team_id.getD 0) = none)
    (h2 : teamIdTruthy orig.team_id = false → tokenTruthy orig.token = true →
      env.getTeamByToken (sanitizeString (orig.token.getD "")) = none) :
    pipelineRun env orig = { dropCause := some "invalid_token" } ∧
    (teamIdTruthy orig.team_id = false → tokenTruthy orig.token = true →
      getTeam env orig = env.getTeamByToken (sanitizeString (orig.token.getD ""))) ∧
    (∀ t : String, (sanitizeString t).data.all (fun c => !(c == '\x00')) = true) := by
  have hteam : getTeam env orig = none := by
    unfold getTeam
    cases hid : teamIdTruthy orig.team_id
    · cases htok : tokenTruthy orig.token
      · simp [hid, htok]
      · simp [hid, htok, h2 hid htok]
    · simp [hid, h1 hid]
  refine ⟨?_, ?_, ?_⟩
  · unfold pipelineRun runInner
    rw [hteam]
  · intro hid htok
    unfold getTeam
    simp [hid, htok]
  · intro t
    have hd : (sanitizeString t).data = t.data.map (fun c => if c = '\x00' then '�' else c) := rfl
    rw [hd, List.all_map, List.all_eq_true]
    intro c _
    by_cases hc : c = '\x00'
    · simp only [Function.comp, hc, if_pos rfl]
      decide
    · simp [Function.comp, hc]

/-- A raw event whose token embeds a null byte and which carries no team id. -/
def nullTokenEvent : PipelineEvent :=
  { token := some "ab\x00c", team_id := none, uuid := validUuidStr, event := "$pageview",
    distinct_id := "d1", properties := none }

/-- Claim C4 witness: the theorem applied to the null-byte token event against
the concrete environment (which only knows the token `"tok"`). -/
theorem claimC4_witness :
    (tokenTruthy nullTokenEvent.token = true ∧
      sampleEnv.getTeamByToken (sanitizeString (nullTokenEvent.token.getD "")) = none) ∧
    pipelineRun sampleEnv nullTokenEvent = { dropCause := some "invalid_token" } :=
  ⟨⟨by decide, by decide⟩,
   (claimC4 sampleEnv nullTokenEvent (by decide) (by decide)).1⟩

/-- Claim C5: an event whose team resolves (and which is not a client ingestion
warning) but whose uuid fails UUID validation makes `run()` rethrow an
`EventDroppedError` carrying `invalid_event_uuid` after queueing exactly one
`invalid_event_uuid` ingestion warning; nothing else happens. -/
theorem claimC5 (env : Env) (orig : PipelineEvent) (team : Team)
    (hteam : getTeam env orig = some team)
    (hname : orig.event ≠ "$$client_ingestion_warning")
    (huuid : isValidUuid orig.uuid = false) :
    pipelineRun env orig =
      { warnings := [captureWarning env (some team.id) (initEventWithTeam orig team)
          "invalid_event_uuid" []],
        error := some
          { ingestionWarning := "invalid_event_uuid", doNotSendToDLQ := false,
            ingestionWarningDetails := [] } } := by
  have he : (initEventWithTeam orig team).event = orig.event := rfl
  have hu : (initEventWithTeam orig team).uuid = orig.uuid := rfl
  unfold pipelineRun runInner
  rw [hteam]
  simp only [he, hu, hname, huuid, if_neg hname, if_pos rfl, ite_false, ite_true]

/-- A raw event with an unparseable uuid. -/
def badUuidEvent : PipelineEvent :=
  { token := some "tok", team_id := none, uuid := "not-a-uuid", event := "$pageview",
    distinct_id := "d1", properties := some [] }

/-- Claim C5 witness: the theorem applied to the bad-uuid event. -/
theorem claimC5_witness :
    (getTeam sampleEnv badUuidEvent = some sampleTeam ∧
      isValidUuid badUuidEvent.uuid = false) ∧
    pipelineRun sampleEnv badUuidEvent =
      { warnings := [captureWarning sampleEnv (some sampleTeam.id)
          (initEventWithTeam badUuidEvent sampleTeam) "invalid_event_uuid" []],
        error := some
          { ingestionWarning := "invalid_event_uuid", doNotSendToDLQ := false,
            ingestionWarningDetails := [] } } :=
  ⟨⟨by decide, by decide⟩,
   claimC5 sampleEnv badUuidEvent sampleTeam (by decide) (by decide) (by decide)⟩

/-- Claim C10: a `$$client_ingestion_warning` event with a resolved team queues
exactly one `client_ingestion_warning` record (whose details carry the event's
`$$client_ingestion_warning_message` when present) and returns successfully:
no messages, no error, no drop, no trace of person/group/heatmap processing —
and since the branch precedes `validateUuid`, no uuid requirement at all. -/
theorem claimC10 (env : Env) (orig : PipelineEvent) (team : Team)
    (hteam : getTeam env orig = some team)
    (hname : orig.event = "$$client_ingestion_warning") :
    pipelineRun env orig =
      { warnings := [captureWarning env (some team.id) (initEventWithTeam orig team)
          "client_ingestion_warning" (clientWarningExtra (initEventWithTeam orig team))] } := by
  have he : (initEventWithTeam orig team).event = "$$client_ingestion_warning" := hname
  unfold pipelineRun runInner
  rw [hteam]
  simp only [he, if_pos rfl, ite_true]

/-- A client ingestion warning event with an invalid uuid and a message. -/
def clientEvent : PipelineEvent :=
  { token := some "tok", team_id := none, uuid := "not-a-uuid",
    event := "$$client_ingestion_warning", distinct_id := "d1",
    properties := some [("$$client_ingestion_warning_message", JVal.jstr "from client")] }

/-- Claim C10 witness: the theorem applied to a client warning event whose uuid
is invalid — the event is still accepted. -/
theorem claimC10_witness :
    (getTeam sampleEnv clientEvent = some sampleTeam ∧
      isValidUuid clientEvent.uuid = false) ∧
    pipelineRun sampleEnv clientEvent =
      { warnings := [captureWarning sampleEnv (some sampleTeam.id)
          (initEventWithTeam clientEvent sampleTeam) "client_ingestion_warning"
          (clientWarningExtra (initEventWithTeam clientEvent sampleTeam))] } :=
  ⟨⟨by decide, by decide⟩,
   claimC10 sampleEnv clientEvent sampleTeam (by decide) rfl⟩

/-- Claim C7: the enriched-event produce is always attempted; a
`MessageSizeTooLarge` rejection yields exactly one `message_size_too_large`
warning carrying the event uuid and resolves (no retry, no delivered record);
any other rejection propagates as an unhandled promise error. -/
theorem claimC7 (env : Env) (kafkaEvent : RawKafkaEvent) :
    produceEventToKafka env kafkaEvent =
      (match env.produceOutcome (mainTopicMessage env kafkaEvent) with
        | ProduceOutcome.ok => ([mainTopicMessage env kafkaEvent], [], [])
        | ProduceOutcome.sizeTooLarge =>
          ([mainTopicMessage env kafkaEvent],
           [sharedCaptureIngestionWarning env kafkaEvent.team_id "message_size_too_large"
             [("eventUuid", JVal.jstr kafkaEvent.uuid),
              ("distinctId", JVal.jstr kafkaEvent.distinct_id)]],
           [])
        | ProduceOutcome.other e => ([mainTopicMessage env kafkaEvent], [], [e])) ∧
    (env.produceOutcome (mainTopicMessage env kafkaEvent) = ProduceOutcome.sizeTooLarge →
      deliveredMessages env (produceEventToKafka env kafkaEvent).1 = []) := by
  constructor
  · rfl
  · intro h
    simp only [produceEventToKafka, deliveredMessages, h]
    simp [h]

/-- A concrete enriched record for the producer scenarios. -/
def sampleRecord : RawKafkaEvent :=
  { uuid := validUuidStr, event := "$pageview", properties := "\x7b\x7d", timestamp := "t",
    team_id := 2, project_id := 20, distinct_id := "d1", elements_chain := "",
    created_at := "t", person_id := "p", person_properties := "\x7b\x7d",
    person_created_at := "t", person_mode := "full" }

/-- `sampleEnv` whose producer rejects the main topic with
`MessageSizeTooLarge`. -/
def sizeEnv : Env :=
  { sampleEnv with produceOutcome := fun m =>
      if m.topic = "events_topic" then ProduceOutcome.sizeTooLarge else ProduceOutcome.ok }

/-- Claim C7 witness: the theorem applied where the main-topic produce rejects
with `MessageSizeTooLarge` — one warning, nothing delivered, no pending error. -/
theorem claimC7_witness :
    sizeEnv.produceOutcome (mainTopicMessage sizeEnv sampleRecord) =
      ProduceOutcome.sizeTooLarge ∧
    deliveredMessages sizeEnv (produceEventToKafka sizeEnv sampleRecord).1 = [] ∧
    (produceEventToKafka sizeEnv sampleRecord).2.1.map Warning.type =
      ["message_size_too_large"] ∧
    (produceEventToKafka sizeEnv sampleRecord).2.2 = [] :=
  ⟨by decide, (claimC7 sizeEnv sampleRecord).2 (by decide), by decide, by decide⟩

/-- Claim C8: a `$exception` event without `$sentry_event_id` routes its
enriched record exclusively to the exceptions symbolification topic, keyed by
the record's uuid; when `$sentry_event_id` is present the record goes to the
main topic instead. -/
theorem claimC8 (env : Env) (ev : PluginEvent) (kafkaEvent : RawKafkaEvent) :
    (ev.event = "$exception" → containsProp ev.properties "$sentry_event_id" = false →
      ∃ errs, routeAndProduce env ev kafkaEvent =
        ([{ topic := env.exceptionsTopic, key := kafkaEvent.uuid,
            value := KafkaValue.raw kafkaEvent }], [], errs)) ∧
    (containsProp ev.properties "$sentry_event_id" = true →
      ∃ w errs, routeAndProduce env ev kafkaEvent =
        ([mainTopicMessage env kafkaEvent], w, errs)) := by
  constructor
  · intro h1 h2
    unfold routeAndProduce
    rw [if_pos ⟨h1, h2⟩]
    cases ho : env.produceOutcome
        { topic := env.exceptionsTopic, key := kafkaEvent.uuid,
          value := KafkaValue.raw kafkaEvent } with
    | ok => exact ⟨[], by simp [produceExceptionSymbolificationEventStep, ho]⟩
    | sizeTooLarge =>
      exact ⟨["MessageSizeTooLarge"], by simp [produceExceptionSymbolificationEventStep, ho]⟩
    | other e => exact ⟨[e], by simp [produceExceptionSymbolificationEventStep, ho]⟩
  · intro h2
    unfold routeAndProduce
    rw [if_neg (by simp [h2])]
    cases ho : env.produceOutcome (mainTopicMessage env kafkaEvent) with
    | ok => exact ⟨[], [], by simp [produceEventToKafka, ho]⟩
    | sizeTooLarge =>
      exact ⟨[sharedCaptureIngestionWarning env kafkaEvent.team_id "message_size_too_large"
          [("eventUuid", JVal.jstr kafkaEvent.uuid),
           ("distinctId", JVal.jstr kafkaEvent.distinct_id)]], [],
        by simp [produceEventToKafka, ho]⟩
    | other e => exact ⟨[], [e], by simp [produceEventToKafka, ho]⟩

/-- A concrete `$exception` working event without `$sentry_event_id`. -/
def exceptionPluginEvent : PluginEvent :=
  { uuid := validUuidStr, event := "$exception", distinct_id := "d1", team_id := 2,
    properties := [("$exception_message", JVal.jstr "boom")] }

/-- Claim C8 witness: the theorem applied to a `$exception` event without
`$sentry_event_id`; with the concrete environment the routing evaluates to
exactly one exceptions-topic message and nothing on the main topic. -/
theorem claimC8_witness :
    (∃ errs, routeAndProduce sampleEnv exceptionPluginEvent sampleRecord =
      ([{ topic := sampleEnv.exceptionsTopic, key := sampleRecord.uuid,
          value := KafkaValue.raw sampleRecord }], [], errs)) ∧
    routeAndProduce sampleEnv exceptionPluginEvent sampleRecord =
      ([{ topic := "exceptions_topic", key := validUuidStr,
          value := KafkaValue.raw sampleRecord }], [], []) :=
  ⟨(claimC8 sampleEnv exceptionPluginEvent sampleRecord).1 rfl (by decide), by decide⟩

theorem processHeatmaps_ok (env : Env) (team : Team) (ev : PluginEvent) (xs : List JVal)
    (hopt : team.heatmaps_opt_in ≠ some false)
    (hext : env.extractHeatmapData ev = Except.ok (some xs))
    (hok : ∀ v ∈ xs, env.produceOutcome
      { topic := env.heatmapsTopic, key := ev.uuid, value := KafkaValue.json v } =
      ProduceOutcome.ok) :
    processHeatmaps env team ev =
      ({ ev with properties := deleteProp ev.properties "$heatmap_data" },
       xs.map (fun v =>
         { topic := env.heatmapsTopic, key := ev.uuid, value := KafkaValue.json v }),
       [], []) := by
  have hmsgs : heatmapMessages env team ev =
      (xs.map (fun v =>
        { topic := env.heatmapsTopic, key := ev.uuid, value := KafkaValue.json v }), []) := by
    unfold heatmapMessages
    rw [if_pos hopt, hext]
    simp
  have herr : ∀ m ∈ xs.map (fun v =>
      ({ topic := env.heatmapsTopic, key := ev.uuid, value := KafkaValue.json v } : TopicMsg)),
      (match env.produceOutcome m with
        | ProduceOutcome.ok => none
        | ProduceOutcome.sizeTooLarge => some "MessageSizeTooLarge"
        | ProduceOutcome.other s => some s) = (none : Option String) := by
    intro m hm
    obtain ⟨v, hv, rfl⟩ := List.mem_map.mp hm
    rw [hok v hv]
  unfold processHeatmaps
  rw [hmsgs]
  simp [List.filterMap_eq_nil_iff.mpr herr]

/-- Claim C6: a `$$heatmap` event (resolved team, valid uuid, surviving person
validation) takes the fast path: only normalisation and heatmap extraction run
(trace is exactly the heatmap step — no cookieless, transformation, person or
group processing), one heatmaps-topic message keyed by the event's uuid is
produced per extracted sub-event, and no enriched record is produced at all. -/
theorem claimC6 (env : Env) (orig : PipelineEvent) (team : Team) (ev2 ev3 : PluginEvent)
    (b : Bool) (w : List Warning) (ts : String) (xs : List JVal)
    (hteam : getTeam env orig = some team)
    (hname : orig.event = "$$heatmap")
    (huuid : isValidUuid orig.uuid = true)
    (hvp : validatePersonProcessing env orig team (initEventWithTeam orig team) =
      Except.ok (ev2, b, w))
    (hname2 : ev2.event = "$$heatmap")
    (hnorm : normalizeEvent env ev2 b = (ev3, ts))
    (hopt : team.heatmaps_opt_in ≠ some false)
    (hext : env.extractHeatmapData ev3 = Except.ok (some xs))
    (hok : ∀ v ∈ xs, env.produceOutcome
      { topic := env.heatmapsTopic, key := ev3.uuid, value := KafkaValue.json v } =
      ProduceOutcome.ok) :
    pipelineRun env orig =
      { warnings := w,
        messages := xs.map (fun v =>
          { topic := env.heatmapsTopic, key := ev3.uuid, value := KafkaValue.json v }),
        trace := [StepTag.heatmaps] } := by
  have he : (initEventWithTeam orig team).event = "$$heatmap" := hname
  have hu : isValidUuid (initEventWithTeam orig team).uuid = true := huuid
  have hph := processHeatmaps_ok env team ev3 xs hopt hext hok
  unfold pipelineRun runInner
  rw [hteam]
  simp [he, hu, hvp, hname2, hnorm, hph]

/-- A team opted into heatmaps. -/
def heatTeam : Team :=
  { id := 3, project_id := 30, anonymize_ips := false, heatmaps_opt_in := some true,
    person_processing_opt_out := false }

/-- The concrete heatmap sub-events extracted in the heatmap scenario. -/
def heatXs : List JVal :=
  [JVal.jobj [("x", JVal.jnum 1)], JVal.jobj [("x", JVal.jnum 2)]]

/-- `sampleEnv` pointed at `heatTeam`, with extraction yielding `heatXs`. -/
def heatEnv : Env :=
  { sampleEnv with
    fetchTeam := fun i => if i = 3 then some heatTeam else none,
    extractHeatmapData := fun _ => Except.ok (some heatXs) }

/-- A concrete `$$heatmap` raw event. -/
def heatEvent : PipelineEvent :=
  { token := none, team_id := some 3, uuid := validUuidStr, event := "$$heatmap",
    distinct_id := "d1", properties := some [("$heatmap_data", JVal.jobj [])] }

/-- Claim C6 witness: the theorem applied to the concrete heatmap scenario —
two sub-events, two heatmaps-topic messages keyed by the event uuid, nothing
else. -/
theorem claimC6_witness :
    (getTeam heatEnv heatEvent = some heatTeam ∧
      heatEnv.extractHeatmapData (initEventWithTeam heatEvent heatTeam) =
        Except.ok (some heatXs)) ∧
    pipelineRun heatEnv heatEvent =
      { warnings := [],
        messages := heatXs.map (fun v =>
          { topic := heatEnv.heatmapsTopic, key := (initEventWithTeam heatEvent heatTeam).uuid,
            value := KafkaValue.json v }),
        trace := [StepTag.heatmaps] } :=
  ⟨⟨by decide, by decide⟩,
   claimC6 heatEnv heatEvent heatTeam (initEventWithTeam heatEvent heatTeam)
     (initEventWithTeam heatEvent heatTeam) true [] "2024-01-01 00:00:00" heatXs
     (by decide) rfl (by decide) (by decide) rfl (by decide) (by decide) (by decide)
     (by decide)⟩
